import Mathlib

/-!
Shallow embedding of `src/militaryGameAsset.cpp`: a military game character
(movement, combat, animation selection) and its weapon system.

Modelling conventions:
* C++ `float` is modelled by `ℚ`; the source performs only addition,
  multiplication, comparison and `fmod`, all exact.
* `glm::vec3` is a record of three rationals.
* `glm::length v > c` (for `0 ≤ c`) is embedded exactly as the square-free
  comparison `c * c < sqLength v`, avoiding the irrational square root.
* `glm::normalize(direction)` in `Move` is irrational in general, so `Move`
  takes the already-normalised direction as its argument; theorems about
  operation sequences quantify over it, which only enlarges the set of
  behaviours covered.
* `std::shared_ptr<Weapon>` aliasing is modelled with an explicit heap:
  `weapons : List Weapon` lives in the character state (the character is the
  only owner in this repository) and `inventory` / `currentWeapon` hold
  indices into it.  In-place mutation through a pointer becomes
  `modifyWeapon`.
* The external collaborators (physics, animation playback, game clock) carry
  no state relevant to the source logic: `UpdateCollision` is a sink,
  `PlayAnimation` records which clip name is currently playing, and
  `GetCurrentTime` is the source's stub returning 0.
-/

/-- `glm::vec3`, three float components. -/
structure Vec3 where
  x : ℚ
  y : ℚ
  z : ℚ
deriving DecidableEq

/-- Squared euclidean length of a `glm::vec3`. -/
def Vec3.sqLength (v : Vec3) : ℚ :=
  v.x * v.x + v.y * v.y + v.z * v.z

/-- `glm::length v > c` for a nonnegative threshold `c`, embedded exactly via
squares: the length (nonnegative square root of `sqLength`) exceeds `c ≥ 0`
iff `c * c < sqLength v`. -/
def Vec3.lengthGT (v : Vec3) (c : ℚ) : Bool :=
  decide (c * c < v.sqLength)

/-- Componentwise scaling by a float (`glm::vec3 * float`). -/
def Vec3.smul (v : Vec3) (s : ℚ) : Vec3 :=
  ⟨v.x * s, v.y * s, v.z * s⟩

/-- Componentwise addition of `glm::vec3`. -/
def Vec3.add (a b : Vec3) : Vec3 :=
  ⟨a.x + b.x, a.y + b.y, a.z + b.z⟩

/-- `Weapon::WeaponStats`. -/
structure WeaponStats where
  maxAmmo : ℤ
  currentAmmo : ℤ
  damage : ℚ
  range : ℚ
  reloadTime : ℚ
  fireRate : ℚ
deriving DecidableEq

/-- The `Weapon` class: stats, type string, last shot timestamp, reloading
flag. -/
structure Weapon where
  stats : WeaponStats
  weaponType : String
  lastShotTime : ℚ
  isReloading : Bool
deriving DecidableEq

/-- `Weapon::GetCurrentTime`, the source's stub game clock: returns 0. -/
def GetCurrentTime : ℚ := 0

/-- `Weapon::CanShoot`: not reloading and positive ammo. -/
def Weapon.CanShoot (w : Weapon) : Bool :=
  !w.isReloading && decide (0 < w.stats.currentAmmo)

/-- `Weapon::NeedsReload`: ammo is exactly zero. -/
def Weapon.NeedsReload (w : Weapon) : Bool :=
  decide (w.stats.currentAmmo = 0)

/-- `Weapon::Shoot`: if `CanShoot()`, decrement ammo and stamp the shot
time; otherwise do nothing. -/
def Weapon.Shoot (w : Weapon) : Weapon :=
  if w.CanShoot then
    { w with
        stats := { w.stats with currentAmmo := w.stats.currentAmmo - 1 },
        lastShotTime := GetCurrentTime }
  else w

/-- `Weapon::StartReload`: set the reloading flag if it is not already set
(the source starts no timer and never clears the flag). -/
def Weapon.StartReload (w : Weapon) : Weapon :=
  if !w.isReloading then { w with isReloading := true } else w

/-- `MilitaryCharacter::CharacterStats` with the source's default values. -/
structure CharacterStats where
  health : ℚ := 100
  stamina : ℚ := 100
  speed : ℚ := 5
  rotationSpeed : ℚ := 180
  crouchSpeedMultiplier : ℚ := 1/2
  sprintSpeedMultiplier : ℚ := 3/2
deriving DecidableEq

/-- `MilitaryCharacter::AnimationState`: five independent booleans. -/
structure AnimationState where
  isRunning : Bool := false
  isCrouching : Bool := false
  isAiming : Bool := false
  isShooting : Bool := false
  isReloading : Bool := false
deriving DecidableEq

/-- The clip names loaded by `MilitaryCharacter::LoadAnimations`; the map is
populated once at construction and immutable afterwards, so it is a
constant. -/
def animationNames : List String :=
  ["idle", "walk", "run", "crouch", "shoot", "reload"]

/-- The `MilitaryCharacter` class.  `currentAnimation` is the name of the
clip currently playing (`none` when no clip has been played yet);
`weapons` is the heap of shared `Weapon` objects, and `inventory` and
`currentWeapon` hold indices into it (shared-pointer identity = index). -/
structure MilitaryCharacter where
  position : Vec3
  rotation : Vec3
  velocity : Vec3
  stats : CharacterStats
  animState : AnimationState
  currentWeapon : Option Nat
  inventory : List Nat
  currentAnimation : Option String
  weapons : List Weapon
deriving DecidableEq

/-- The `MilitaryCharacter` constructor: position from the argument, zero
rotation and velocity, default stats and flags, empty inventory, no
equipped weapon, no clip playing yet. -/
def MilitaryCharacter.init (startPos : Vec3) : MilitaryCharacter where
  position := startPos
  rotation := ⟨0, 0, 0⟩
  velocity := ⟨0, 0, 0⟩
  stats := {}
  animState := {}
  currentWeapon := none
  inventory := []
  currentAnimation := none
  weapons := []

/-- `MAX_WEAPONS = 3`. -/
def MAX_WEAPONS : Nat := 3

/-- In-place update, through a shared pointer, of the weapon object at heap
index `i` (out-of-range indices never arise from the operations below). -/
def modifyWeapon : List Weapon → Nat → (Weapon → Weapon) → List Weapon
  | [], _, _ => []
  | w :: ws, 0, f => f w :: ws
  | w :: ws, n + 1, f => w :: modifyWeapon ws n f

/-- Dereference the shared pointer with heap index `i`. -/
def MilitaryCharacter.getWeapon (c : MilitaryCharacter) (i : Nat) : Option Weapon :=
  c.weapons[i]?

/-- Apply `f` to the weapon object the shared pointer `i` designates. -/
def MilitaryCharacter.withWeapon (c : MilitaryCharacter) (i : Nat)
    (f : Weapon → Weapon) : MilitaryCharacter :=
  { c with weapons := modifyWeapon c.weapons i f }

/-- `MilitaryCharacter::PlayAnimation`: if the name is in the clip library,
a fresh copy of that clip starts playing (recorded as `currentAnimation`);
an unknown name is silently ignored. -/
def MilitaryCharacter.PlayAnimation (c : MilitaryCharacter) (animName : String) :
    MilitaryCharacter :=
  if animationNames.contains animName then
    { c with currentAnimation := some animName }
  else c

/-- `MilitaryCharacter::DetermineAnimation`: first-match priority over the
animation flags, then the walk/idle speed test. -/
def MilitaryCharacter.DetermineAnimation (c : MilitaryCharacter) : String :=
  if c.animState.isReloading then "reload"
  else if c.animState.isShooting then "shoot"
  else if c.animState.isCrouching then "crouch"
  else if c.animState.isRunning then "run"
  else if c.velocity.lengthGT (1/10) then "walk"
  else "idle"

/-- `MilitaryCharacter::UpdateAnimation`. -/
def MilitaryCharacter.UpdateAnimation (c : MilitaryCharacter) : MilitaryCharacter :=
  c.PlayAnimation c.DetermineAnimation

/-- `MilitaryCharacter::Move`.  `moveDirection` stands for
`glm::normalize(direction)` (see the header comment); the external
`physics->UpdateCollision(position)` call carries no character state. -/
def MilitaryCharacter.Move (c : MilitaryCharacter) (moveDirection : Vec3)
    (deltaTime : ℚ) : MilitaryCharacter :=
  let currentSpeed :=
    if c.animState.isCrouching then c.stats.speed * c.stats.crouchSpeedMultiplier
    else if c.animState.isRunning then c.stats.speed * c.stats.sprintSpeedMultiplier
    else c.stats.speed
  let v := moveDirection.smul currentSpeed
  ({ c with velocity := v, position := c.position.add (v.smul deltaTime) }).UpdateAnimation

/-- Truncation of a rational toward zero, the quotient C's `fmod` uses:
truncated division of the numerator by the (positive) denominator. -/
def ratTrunc (q : ℚ) : ℤ :=
  q.num.tdiv q.den

/-- C's `fmod x y`: the remainder `x - y * trunc (x / y)`, which keeps the
sign of `x`. -/
def cfmod (x y : ℚ) : ℚ :=
  x - y * ratTrunc (x / y)

/-- `MilitaryCharacter::Rotate`: add `yawDelta * rotationSpeed * deltaTime`
to the yaw (the `y` component of `rotation`) and reduce it with
`fmod(·, 360)`. -/
def MilitaryCharacter.Rotate (c : MilitaryCharacter) (yawDelta deltaTime : ℚ) :
    MilitaryCharacter :=
  let y1 := c.rotation.y + yawDelta * c.stats.rotationSpeed * deltaTime
  { c with rotation := { c.rotation with y := cfmod y1 360 } }

/-- `MilitaryCharacter::PickupWeapon`: if the inventory holds fewer than
`MAX_WEAPONS` weapons, append the weapon (a fresh heap object, whose index
is the shared pointer handed in) and, when no weapon is equipped, equip it;
return the success boolean together with the new state. -/
def MilitaryCharacter.PickupWeapon (c : MilitaryCharacter) (weapon : Weapon) :
    Bool × MilitaryCharacter :=
  if c.inventory.length < MAX_WEAPONS then
    let wid := c.weapons.length
    let c1 := { c with
      weapons := c.weapons ++ [weapon],
      inventory := c.inventory ++ [wid] }
    let c2 := if c1.currentWeapon = none then { c1 with currentWeapon := some wid } else c1
    (true, c2)
  else
    (false, c)

/-- `MilitaryCharacter::Reload`: no-op without an equipped weapon or while
already reloading; otherwise set the character reloading flag, start the
weapon's reload, and play the "reload" clip. -/
def MilitaryCharacter.Reload (c : MilitaryCharacter) : MilitaryCharacter :=
  match c.currentWeapon with
  | none => c
  | some i =>
    if !c.animState.isReloading then
      ((({ c with animState := { c.animState with isReloading := true }
          }).withWeapon i Weapon.StartReload).PlayAnimation "reload")
    else c

/-- `MilitaryCharacter::Shoot`: no-op without an equipped weapon or while
reloading; if the weapon can shoot, set the shooting flag, fire it and play
the "shoot" clip; else if it needs reload, redirect to `Reload()`.  (The
`getWeapon` miss branch mirrors a dangling pointer and never arises.) -/
def MilitaryCharacter.Shoot (c : MilitaryCharacter) : MilitaryCharacter :=
  match c.currentWeapon with
  | none => c
  | some i =>
    if !c.animState.isReloading then
      match c.getWeapon i with
      | none => c
      | some w =>
        if w.CanShoot then
          ((({ c with animState := { c.animState with isShooting := true }
              }).withWeapon i Weapon.Shoot).PlayAnimation "shoot")
        else if w.NeedsReload then
          c.Reload
        else c
    else c

/-- `MilitaryCharacter::ToggleCrouch`. -/
def MilitaryCharacter.ToggleCrouch (c : MilitaryCharacter) : MilitaryCharacter :=
  ({ c with animState := { c.animState with isCrouching := !c.animState.isCrouching }
    }).UpdateAnimation

/-- `MilitaryCharacter::StartSprint`: only when neither crouching nor
aiming. -/
def MilitaryCharacter.StartSprint (c : MilitaryCharacter) : MilitaryCharacter :=
  if !c.animState.isCrouching && !c.animState.isAiming then
    ({ c with animState := { c.animState with isRunning := true } }).UpdateAnimation
  else c

/-- `MilitaryCharacter::StopSprint`. -/
def MilitaryCharacter.StopSprint (c : MilitaryCharacter) : MilitaryCharacter :=
  ({ c with animState := { c.animState with isRunning := false } }).UpdateAnimation

/-- One public operation on the character or (through a retained shared
pointer) directly on a weapon object. -/
inductive Op where
  | move (moveDirection : Vec3) (deltaTime : ℚ)
  | rotate (yawDelta deltaTime : ℚ)
  | pickupWeapon (w : Weapon)
  | shoot
  | reload
  | toggleCrouch
  | startSprint
  | stopSprint
  | updateAnimation
  | weaponShoot (i : Nat)
  | weaponStartReload (i : Nat)

/-- Apply one operation to the state. -/
def applyOp (c : MilitaryCharacter) : Op → MilitaryCharacter
  | .move d dt => c.Move d dt
  | .rotate yd dt => c.Rotate yd dt
  | .pickupWeapon w => (c.PickupWeapon w).2
  | .shoot => c.Shoot
  | .reload => c.Reload
  | .toggleCrouch => c.ToggleCrouch
  | .startSprint => c.StartSprint
  | .stopSprint => c.StopSprint
  | .updateAnimation => c.UpdateAnimation
  | .weaponShoot i => c.withWeapon i Weapon.Shoot
  | .weaponStartReload i => c.withWeapon i Weapon.StartReload

/-- Run a sequence of operations left to right. -/
def runOps (c : MilitaryCharacter) : List Op → MilitaryCharacter
  | [] => c
  | op :: ops => runOps (applyOp c op) ops

/-- A sample weapon for concrete executions. -/
def pistol (ammo : ℤ) : Weapon where
  stats := { maxAmmo := 12, currentAmmo := ammo, damage := 10, range := 100,
             reloadTime := 2, fireRate := 5 }
  weaponType := "pistol"
  lastShotTime := 0
  isReloading := false

/-- How a single weapon object may change across operations: a set reloading
flag stays set, ammo never increases, and ammo 0 is absorbing. -/
def weaponEvolve (w w' : Weapon) : Prop :=
  (w.isReloading = true → w'.isReloading = true) ∧
  w'.stats.currentAmmo ≤ w.stats.currentAmmo ∧
  (w.stats.currentAmmo = 0 → w'.stats.currentAmmo = 0)

/-- The equipped-weapon invariant: a non-null `currentWeapon` references an
element of the inventory. -/
def weaponInvariant (c : MilitaryCharacter) : Prop :=
  ∀ i, c.currentWeapon = some i → i ∈ c.inventory

/-- A fresh character at the origin. -/
def c0 : MilitaryCharacter := MilitaryCharacter.init ⟨0, 0, 0⟩

/-- A crouching character. -/
def cCrouch : MilitaryCharacter := { c0 with animState := { isCrouching := true } }

/-- A character that picked up an empty pistol. -/
def cArmedEmpty : MilitaryCharacter := (c0.PickupWeapon (pistol 0)).2

/-- An empty pistol whose reload was already started. -/
def wRel : Weapon := { pistol 0 with isReloading := true }

/-- A character equipped with `wRel`. -/
def cReloading : MilitaryCharacter :=
  { c0 with currentWeapon := some 0, inventory := [0], weapons := [wRel] }

/-! ### Helper lemmas -/

lemma ratTrunc_eq_floor (q : ℚ) (h : 0 ≤ q) : ratTrunc q = ⌊q⌋ := by
  have hnum : 0 ≤ q.num := Rat.num_nonneg.mpr h
  have hden : (0 : ℤ) ≤ (q.den : ℤ) := Int.ofNat_nonneg _
  rw [ratTrunc, Int.tdiv_eq_ediv hnum hden, Rat.floor_def]

lemma ratTrunc_eq_ceil (q : ℚ) (h : q ≤ 0) : ratTrunc q = ⌈q⌉ := by
  have hnum : q.num ≤ 0 := Rat.num_nonpos.mpr h
  have hq : 0 ≤ -q := neg_nonneg.mpr h
  have : ratTrunc (-q) = ⌊-q⌋ := ratTrunc_eq_floor _ hq
  rw [ratTrunc, Rat.neg_num, Rat.neg_den, Int.neg_tdiv] at this
  rw [ratTrunc, ← neg_neg (q.num.tdiv q.den), this, Int.floor_neg, neg_neg]

lemma cfmod_nonneg_lt (x y : ℚ) (hx : 0 ≤ x) (hy : 0 < y) :
    0 ≤ cfmod x y ∧ cfmod x y < y := by
  have hq : 0 ≤ x / y := div_nonneg hx hy.le
  have hy0 : y ≠ 0 := ne_of_gt hy
  have key : cfmod x y = y * Int.fract (x / y) := by
    rw [cfmod, ratTrunc_eq_floor _ hq, Int.fract]
    field_simp
  constructor
  · rw [key]; exact mul_nonneg hy.le (Int.fract_nonneg _)
  · rw [key]
    calc y * Int.fract (x / y) < y * 1 :=
          mul_lt_mul_of_pos_left (Int.fract_lt_one _) hy
      _ = y := mul_one y

lemma modifyWeapon_getElem (l : List Weapon) (j : Nat) (f : Weapon → Weapon) (i : Nat) :
    (modifyWeapon l j f)[i]? = if i = j then (l[i]?).map f else l[i]? := by
  induction l generalizing i j with
  | nil => simp [modifyWeapon]
  | cons w ws ih =>
    cases j with
    | zero =>
      cases i with
      | zero => simp [modifyWeapon]
      | succ i => simp [modifyWeapon]
    | succ j =>
      cases i with
      | zero => simp [modifyWeapon]
      | succ i => simpa [modifyWeapon] using ih j i

lemma playAnimation_eq (c : MilitaryCharacter) (s : String) :
    c.PlayAnimation s =
      { c with currentAnimation :=
          if animationNames.contains s then some s else c.currentAnimation } := by
  rw [MilitaryCharacter.PlayAnimation]
  split <;> simp_all

lemma determineAnimation_mem (c : MilitaryCharacter) :
    c.DetermineAnimation ∈ animationNames := by
  rw [MilitaryCharacter.DetermineAnimation]
  repeat' split
  all_goals simp [animationNames]

lemma updateAnimation_eq (c : MilitaryCharacter) :
    c.UpdateAnimation = { c with currentAnimation := some c.DetermineAnimation } := by
  have h : animationNames.contains c.DetermineAnimation = true :=
    List.elem_eq_true_of_mem (determineAnimation_mem c)
  rw [MilitaryCharacter.UpdateAnimation, playAnimation_eq, h]
  simp

lemma pickup_eq (c : MilitaryCharacter) (w : Weapon) :
    c.PickupWeapon w =
      if c.inventory.length < MAX_WEAPONS then
        (true,
          { c with
            weapons := c.weapons ++ [w],
            inventory := c.inventory ++ [c.weapons.length],
            currentWeapon := if c.currentWeapon = none then some c.weapons.length
                             else c.currentWeapon })
      else (false, c) := by
  rw [MilitaryCharacter.PickupWeapon]
  split
  · by_cases h : c.currentWeapon = none <;> simp [h]
  · rfl

lemma reload_frame (c : MilitaryCharacter) :
    c.Reload.inventory = c.inventory ∧ c.Reload.currentWeapon = c.currentWeapon ∧
    (c.Reload.weapons = c.weapons ∨
      ∃ j, c.Reload.weapons = modifyWeapon c.weapons j Weapon.StartReload) := by
  rw [MilitaryCharacter.Reload]
  cases hcw : c.currentWeapon with
  | none => simp [hcw]
  | some i =>
    by_cases hr : c.animState.isReloading = true
    · simp [hr, hcw]
    · simp only [Bool.not_eq_true] at hr
      simp [hr, hcw, playAnimation_eq, MilitaryCharacter.withWeapon]
      exact .inr ⟨i, rfl⟩

lemma shoot_frame (c : MilitaryCharacter) :
    c.Shoot.inventory = c.inventory ∧ c.Shoot.currentWeapon = c.currentWeapon ∧
    (c.Shoot.weapons = c.weapons ∨
      (∃ j, c.Shoot.weapons = modifyWeapon c.weapons j Weapon.Shoot ∨
            c.Shoot.weapons = modifyWeapon c.weapons j Weapon.StartReload)) := by
  rw [MilitaryCharacter.Shoot]
  cases hcw : c.currentWeapon with
  | none => simp [hcw]
  | some i =>
    by_cases hr : c.animState.isReloading = true
    · simp [hr, hcw]
    · simp only [Bool.not_eq_true] at hr
      cases hgw : c.getWeapon i with
      | none => simp [hr, hcw, hgw]
      | some w =>
        by_cases hcs : w.CanShoot = true
        · simp [hr, hcw, hgw, hcs, playAnimation_eq, MilitaryCharacter.withWeapon]
          exact .inr ⟨i, .inl rfl⟩
        · simp only [Bool.not_eq_true] at hcs
          by_cases hnr : w.NeedsReload = true
          · obtain ⟨h1, h2, h3⟩ := reload_frame c
            simp [hr, hcw, hgw, hcs, hnr]
            refine ⟨h1, by rw [h2, hcw], ?_⟩
            rcases h3 with h | ⟨j, hj⟩
            · exact .inl h
            · exact .inr ⟨j, .inr hj⟩
          · simp only [Bool.not_eq_true] at hnr
            simp [hr, hcw, hgw, hcs, hnr]

lemma weaponEvolve_refl (w : Weapon) : weaponEvolve w w :=
  ⟨fun h => h, le_refl _, fun h => h⟩

lemma weaponEvolve_trans {w v u : Weapon} (h1 : weaponEvolve w v)
    (h2 : weaponEvolve v u) : weaponEvolve w u :=
  ⟨fun h => h2.1 (h1.1 h), le_trans h2.2.1 h1.2.1, fun h => h2.2.2 (h1.2.2 h)⟩

lemma weaponEvolve_shoot (w : Weapon) : weaponEvolve w w.Shoot := by
  rw [Weapon.Shoot]
  split
  · next h =>
    rw [Weapon.CanShoot, Bool.and_eq_true, decide_eq_true_eq] at h
    refine ⟨fun hr => hr, ?_, fun h0 => ?_⟩
    · simp
    · exact absurd h0 (by omega)
  · exact weaponEvolve_refl w

lemma weaponEvolve_startReload (w : Weapon) : weaponEvolve w w.StartReload := by
  rw [Weapon.StartReload]
  split
  · exact ⟨fun _ => rfl, le_refl _, fun h => h⟩
  · exact weaponEvolve_refl w

lemma modify_evolve (l : List Weapon) (j : Nat) (f : Weapon → Weapon)
    (hf : ∀ w, weaponEvolve w (f w)) (i : Nat) (w : Weapon) (hw : l[i]? = some w) :
    ∃ w', (modifyWeapon l j f)[i]? = some w' ∧ weaponEvolve w w' := by
  rw [modifyWeapon_getElem]
  by_cases h : i = j
  · subst h
    exact ⟨f w, by simp [hw], hf w⟩
  · exact ⟨w, by simp [h, hw], weaponEvolve_refl w⟩

lemma getElem_append_keep (l : List Weapon) (w0 : Weapon) (i : Nat) (w : Weapon)
    (hw : l[i]? = some w) : (l ++ [w0])[i]? = some w := by
  have hi : i < l.length := (List.getElem?_eq_some_iff.mp hw).1
  rw [List.getElem?_append_left hi]
  exact hw

lemma withWeapon_fields (c : MilitaryCharacter) (j : Nat) (f : Weapon → Weapon) :
    (c.withWeapon j f).inventory = c.inventory ∧
    (c.withWeapon j f).currentWeapon = c.currentWeapon ∧
    (c.withWeapon j f).weapons = modifyWeapon c.weapons j f :=
  ⟨rfl, rfl, rfl⟩

lemma applyOp_heap (c : MilitaryCharacter) (op : Op) (i : Nat) (w : Weapon)
    (hw : c.weapons[i]? = some w) :
    ∃ w', (applyOp c op).weapons[i]? = some w' ∧ weaponEvolve w w' := by
  cases op with
  | move d dt =>
    exact ⟨w, by simpa [applyOp, MilitaryCharacter.Move, updateAnimation_eq] using hw,
           weaponEvolve_refl w⟩
  | rotate yd dt =>
    exact ⟨w, by simpa [applyOp, MilitaryCharacter.Rotate] using hw, weaponEvolve_refl w⟩
  | pickupWeapon w0 =>
    rw [applyOp, pickup_eq]
    split
    · exact ⟨w, by simpa using getElem_append_keep c.weapons w0 i w hw, weaponEvolve_refl w⟩
    · exact ⟨w, hw, weaponEvolve_refl w⟩
  | shoot =>
    show ∃ w', c.Shoot.weapons[i]? = some w' ∧ weaponEvolve w w'
    rcases (shoot_frame c).2.2 with h | ⟨j, hj | hj⟩
    · exact ⟨w, by rw [h]; exact hw, weaponEvolve_refl w⟩
    · rw [hj]; exact modify_evolve c.weapons j Weapon.Shoot weaponEvolve_shoot i w hw
    · rw [hj]; exact modify_evolve c.weapons j Weapon.StartReload weaponEvolve_startReload i w hw
  | reload =>
    show ∃ w', c.Reload.weapons[i]? = some w' ∧ weaponEvolve w w'
    rcases (reload_frame c).2.2 with h | ⟨j, hj⟩
    · exact ⟨w, by rw [h]; exact hw, weaponEvolve_refl w⟩
    · rw [hj]; exact modify_evolve c.weapons j Weapon.StartReload weaponEvolve_startReload i w hw
  | toggleCrouch =>
    exact ⟨w, by simpa [applyOp, MilitaryCharacter.ToggleCrouch, updateAnimation_eq] using hw,
           weaponEvolve_refl w⟩
  | startSprint =>
    refine ⟨w, ?_, weaponEvolve_refl w⟩
    rw [applyOp, MilitaryCharacter.StartSprint]
    split
    · simpa [updateAnimation_eq] using hw
    · exact hw
  | stopSprint =>
    exact ⟨w, by simpa [applyOp, MilitaryCharacter.StopSprint, updateAnimation_eq] using hw,
           weaponEvolve_refl w⟩
  | updateAnimation =>
    exact ⟨w, by simpa [applyOp, updateAnimation_eq] using hw, weaponEvolve_refl w⟩
  | weaponShoot j =>
    rw [applyOp, (withWeapon_fields c j Weapon.Shoot).2.2]
    exact modify_evolve c.weapons j Weapon.Shoot weaponEvolve_shoot i w hw
  | weaponStartReload j =>
    rw [applyOp, (withWeapon_fields c j Weapon.StartReload).2.2]
    exact modify_evolve c.weapons j Weapon.StartReload weaponEvolve_startReload i w hw

lemma runOps_heap (ops : List Op) (c : MilitaryCharacter) (i : Nat) (w : Weapon)
    (hw : c.weapons[i]? = some w) :
    ∃ w', (runOps c ops).weapons[i]? = some w' ∧ weaponEvolve w w' := by
  induction ops generalizing c w with
  | nil => exact ⟨w, hw, weaponEvolve_refl w⟩
  | cons op ops ih =>
    obtain ⟨v, hv, hev⟩ := applyOp_heap c op i w hw
    obtain ⟨u, hu, hev2⟩ := ih (applyOp c op) v hv
    exact ⟨u, by simpa [runOps] using hu, weaponEvolve_trans hev hev2⟩

lemma applyOp_inventory (c : MilitaryCharacter) (op : Op) :
    ((applyOp c op).inventory = c.inventory ∧
     (applyOp c op).currentWeapon = c.currentWeapon) ∨
    (c.inventory.length < MAX_WEAPONS ∧
     (applyOp c op).inventory = c.inventory ++ [c.weapons.length] ∧
     (applyOp c op).currentWeapon =
       (if c.currentWeapon = none then some c.weapons.length else c.currentWeapon)) := by
  cases op with
  | move d dt => exact .inl (by simp [applyOp, MilitaryCharacter.Move, updateAnimation_eq])
  | rotate yd dt => exact .inl (by simp [applyOp, MilitaryCharacter.Rotate])
  | pickupWeapon w0 =>
    rw [applyOp, pickup_eq]
    split
    · next h => exact .inr ⟨h, rfl, rfl⟩
    · exact .inl ⟨rfl, rfl⟩
  | shoot => exact .inl ⟨(shoot_frame c).1, (shoot_frame c).2.1⟩
  | reload => exact .inl ⟨(reload_frame c).1, (reload_frame c).2.1⟩
  | toggleCrouch =>
    exact .inl (by simp [applyOp, MilitaryCharacter.ToggleCrouch, updateAnimation_eq])
  | startSprint =>
    refine .inl ?_
    rw [applyOp, MilitaryCharacter.StartSprint]
    split
    · simp [updateAnimation_eq]
    · exact ⟨rfl, rfl⟩
  | stopSprint =>
    exact .inl (by simp [applyOp, MilitaryCharacter.StopSprint, updateAnimation_eq])
  | updateAnimation => exact .inl (by simp [applyOp, updateAnimation_eq])
  | weaponShoot j => exact .inl ⟨rfl, rfl⟩
  | weaponStartReload j => exact .inl ⟨rfl, rfl⟩

lemma applyOp_inventory_length (c : MilitaryCharacter) (op : Op)
    (h : c.inventory.length ≤ MAX_WEAPONS) :
    (applyOp c op).inventory.length ≤ MAX_WEAPONS := by
  rcases applyOp_inventory c op with ⟨h1, _⟩ | ⟨hlt, h1, _⟩
  · rw [h1]; exact h
  · rw [h1]; simp; omega

lemma runOps_inventory_length (ops : List Op) (c : MilitaryCharacter)
    (h : c.inventory.length ≤ MAX_WEAPONS) :
    (runOps c ops).inventory.length ≤ MAX_WEAPONS := by
  induction ops generalizing c with
  | nil => exact h
  | cons op ops ih => exact ih (applyOp c op) (applyOp_inventory_length c op h)

lemma applyOp_weaponInvariant (c : MilitaryCharacter) (op : Op)
    (h : weaponInvariant c) : weaponInvariant (applyOp c op) := by
  intro i hi
  rcases applyOp_inventory c op with ⟨h1, h2⟩ | ⟨_, h1, h2⟩
  · rw [h1]; exact h i (h2 ▸ hi)
  · rw [h2] at hi
    rw [h1]
    by_cases hcw : c.currentWeapon = none
    · rw [if_pos hcw] at hi
      cases hi
      simp
    · rw [if_neg hcw] at hi
      exact List.mem_append_left _ (h i hi)

lemma runOps_weaponInvariant (ops : List Op) (c : MilitaryCharacter)
    (h : weaponInvariant c) : weaponInvariant (runOps c ops) := by
  induction ops generalizing c with
  | nil => exact h
  | cons op ops ih => exact ih (applyOp c op) (applyOp_weaponInvariant c op h)

/-! ### The claims -/

/-- C1: for every state, `DetermineAnimation` returns exactly one of the
names "reload", "shoot", "crouch", "run", "walk", "idle", chosen by strict
first-match priority: reloading yields "reload", else shooting yields
"shoot", else crouching yields "crouch", else running yields "run", else a
velocity of length strictly greater than 0.1 yields "walk", else "idle". -/
theorem C1_determineAnimation_priority (c : MilitaryCharacter) :
    (c.DetermineAnimation = "reload" ∨ c.DetermineAnimation = "shoot" ∨
     c.DetermineAnimation = "crouch" ∨ c.DetermineAnimation = "run" ∨
     c.DetermineAnimation = "walk" ∨ c.DetermineAnimation = "idle") ∧
    (c.animState.isReloading = true → c.DetermineAnimation = "reload") ∧
    (c.animState.isReloading = false → c.animState.isShooting = true →
      c.DetermineAnimation = "shoot") ∧
    (c.animState.isReloading = false → c.animState.isShooting = false →
      c.animState.isCrouching = true → c.DetermineAnimation = "crouch") ∧
    (c.animState.isReloading = false → c.animState.isShooting = false →
      c.animState.isCrouching = false → c.animState.isRunning = true →
      c.DetermineAnimation = "run") ∧
    (c.animState.isReloading = false → c.animState.isShooting = false →
      c.animState.isCrouching = false → c.animState.isRunning = false →
      c.velocity.lengthGT (1/10) = true → c.DetermineAnimation = "walk") ∧
    (c.animState.isReloading = false → c.animState.isShooting = false →
      c.animState.isCrouching = false → c.animState.isRunning = false →
      c.velocity.lengthGT (1/10) = false → c.DetermineAnimation = "idle") := by
  refine ⟨?_, ?_, ?_, ?_, ?_, ?_, ?_⟩
  · have hmem := determineAnimation_mem c
    simp only [animationNames, List.mem_cons, List.not_mem_nil, or_false] at hmem
    tauto
  · intro h1
    simp [MilitaryCharacter.DetermineAnimation, h1]
  · intro h1 h2
    simp [MilitaryCharacter.DetermineAnimation, h1, h2]
  · intro h1 h2 h3
    simp [MilitaryCharacter.DetermineAnimation, h1, h2, h3]
  · intro h1 h2 h3 h4
    simp [MilitaryCharacter.DetermineAnimation, h1, h2, h3, h4]
  · intro h1 h2 h3 h4 h5
    rw [one_div] at h5
    simp [MilitaryCharacter.DetermineAnimation, h1, h2, h3, h4, h5]
  · intro h1 h2 h3 h4 h5
    rw [one_div] at h5
    simp [MilitaryCharacter.DetermineAnimation, h1, h2, h3, h4, h5]

/-- C1 witness: a crouching character (other flags clear) gets "crouch". -/
theorem C1_witness : cCrouch.DetermineAnimation = "crouch" :=
  (C1_determineAnimation_priority cCrouch).2.2.2.1 rfl rfl rfl

/-- C3: `Weapon.Shoot` decrements `currentAmmo` by exactly 1 when
`CanShoot()` holds at call time, leaves the weapon unchanged otherwise, and
never makes `currentAmmo` negative. -/
theorem C3_weapon_shoot_ammo (w : Weapon) :
    (w.CanShoot = true → (w.Shoot).stats.currentAmmo = w.stats.currentAmmo - 1) ∧
    (w.CanShoot = false → w.Shoot = w) ∧
    (0 ≤ w.stats.currentAmmo → 0 ≤ (w.Shoot).stats.currentAmmo) := by
  refine ⟨fun h => ?_, fun h => ?_, fun h => ?_⟩
  · simp [Weapon.Shoot, h]
  · simp [Weapon.Shoot, h]
  · by_cases hc : w.CanShoot = true
    · have hpos : 0 < w.stats.currentAmmo := by
        rw [Weapon.CanShoot, Bool.and_eq_true, decide_eq_true_eq] at hc
        exact hc.2
      simp only [Weapon.Shoot, hc, if_true]
      omega
    · simp only [Bool.not_eq_true] at hc
      simp [Weapon.Shoot, hc]
      exact h

/-- C3 witness: shooting a pistol with 2 rounds leaves exactly 1. -/
theorem C3_witness : ((pistol 2).Shoot).stats.currentAmmo = (pistol 2).stats.currentAmmo - 1 :=
  (C3_weapon_shoot_ammo (pistol 2)).1 rfl

/-- C6: when the character is crouching or aiming at call time,
`StartSprint()` has no effect at all: the state is unchanged (in particular
`isRunning` stays false if it was false). -/
theorem C6_startSprint_guard (c : MilitaryCharacter)
    (h : c.animState.isCrouching = true ∨ c.animState.isAiming = true) :
    c.StartSprint = c := by
  rw [MilitaryCharacter.StartSprint]
  rcases h with h | h <;> simp [h]

/-- C6 witness: a crouching character is untouched by `StartSprint`. -/
theorem C6_witness : cCrouch.StartSprint = cCrouch :=
  C6_startSprint_guard cCrouch (.inl rfl)

/-- C7: `Weapon.NeedsReload()` is true iff `currentAmmo == 0`, regardless of
the weapon's `isReloading` flag. -/
theorem C7_needsReload_iff (w : Weapon) :
    (w.NeedsReload = true ↔ w.stats.currentAmmo = 0) ∧
    (∀ b : Bool, Weapon.NeedsReload { w with isReloading := b } = w.NeedsReload) := by
  refine ⟨?_, fun b => rfl⟩
  simp [Weapon.NeedsReload]

/-- C7 witness: the empty pistol needs reload. -/
theorem C7_witness : (pistol 0).NeedsReload = true :=
  (C7_needsReload_iff (pistol 0)).1.mpr rfl

lemma pickup_success_len (c : MilitaryCharacter) (w : Weapon)
    (h : c.inventory.length < 3) :
    (c.PickupWeapon w).1 = true ∧
    (c.PickupWeapon w).2.inventory.length = c.inventory.length + 1 := by
  rw [pickup_eq, if_pos (show c.inventory.length < MAX_WEAPONS from h)]
  exact ⟨rfl, by simp⟩

lemma pickup_fail_of_full (c : MilitaryCharacter) (w : Weapon)
    (h : ¬c.inventory.length < 3) :
    (c.PickupWeapon w).1 = false := by
  rw [pickup_eq, if_neg (show ¬c.inventory.length < MAX_WEAPONS from h)]

/-- C2: with an equipped weapon at `currentAmmo = 0` and the character-level
reloading flag clear, `Character.Shoot()` redirects to `Reload()`: the
weapon's ammo stays 0, the character's `isReloading` becomes true, and the
"reload" clip is selected. -/
theorem C2_shoot_redirects_to_reload (c : MilitaryCharacter) (i : Nat) (w : Weapon)
    (hcw : c.currentWeapon = some i) (hw : c.getWeapon i = some w)
    (hammo : w.stats.currentAmmo = 0) (hrel : c.animState.isReloading = false) :
    ∃ w', (c.Shoot).getWeapon i = some w' ∧ w'.stats.currentAmmo = 0 ∧
      (c.Shoot).animState.isReloading = true ∧
      (c.Shoot).currentAnimation = some "reload" := by
  have hcs : w.CanShoot = false := by
    simp [Weapon.CanShoot, hammo]
  have hnr : w.NeedsReload = true := by
    simp [Weapon.NeedsReload, hammo]
  have hshoot : c.Shoot = c.Reload := by
    rw [MilitaryCharacter.Shoot, hcw]
    simp [hrel, hw, hcs, hnr]
  have hreload : c.Reload =
      ((({ c with animState := { c.animState with isReloading := true }
         }).withWeapon i Weapon.StartReload).PlayAnimation "reload") := by
    rw [MilitaryCharacter.Reload, hcw]
    simp [hrel]
  rw [MilitaryCharacter.getWeapon] at hw
  refine ⟨w.StartReload, ?_, ?_, ?_, ?_⟩
  · rw [hshoot, hreload, MilitaryCharacter.getWeapon, playAnimation_eq]
    show (modifyWeapon c.weapons i Weapon.StartReload)[i]? = some w.StartReload
    rw [modifyWeapon_getElem, if_pos rfl, hw]
    rfl
  · rw [Weapon.StartReload]
    split <;> simp [hammo]
  · rw [hshoot, hreload, playAnimation_eq]
    rfl
  · rw [hshoot, hreload, playAnimation_eq]
    simp [animationNames]

/-- C2 witness: a fresh character that picked up an empty pistol. -/
theorem C2_witness :
    ∃ w', (cArmedEmpty.Shoot).getWeapon 0 = some w' ∧ w'.stats.currentAmmo = 0 ∧
      (cArmedEmpty.Shoot).animState.isReloading = true ∧
      (cArmedEmpty.Shoot).currentAnimation = some "reload" :=
  C2_shoot_redirects_to_reload cArmedEmpty 0 (pistol 0) rfl rfl rfl rfl

/-- C4: `PickupWeapon` succeeds (returns true, appends the weapon) iff the
inventory size is strictly below 3, and fails leaving the whole state
unchanged otherwise; from an empty inventory four calls succeed three times
and fail the fourth; no operation sequence ever pushes the size above 3. -/
theorem C4_pickup_capacity :
    (∀ (c : MilitaryCharacter) (w : Weapon),
      ((c.PickupWeapon w).1 = true ↔ c.inventory.length < 3) ∧
      ((c.PickupWeapon w).1 = true →
        (c.PickupWeapon w).2.inventory = c.inventory ++ [c.weapons.length] ∧
        (c.PickupWeapon w).2.weapons = c.weapons ++ [w]) ∧
      ((c.PickupWeapon w).1 = false → (c.PickupWeapon w).2 = c)) ∧
    (∀ (c : MilitaryCharacter) (w1 w2 w3 w4 : Weapon), c.inventory = [] →
      (c.PickupWeapon w1).1 = true ∧
      (((c.PickupWeapon w1).2).PickupWeapon w2).1 = true ∧
      (((((c.PickupWeapon w1).2).PickupWeapon w2).2).PickupWeapon w3).1 = true ∧
      (((((((c.PickupWeapon w1).2).PickupWeapon w2).2).PickupWeapon w3).2).PickupWeapon w4).1
        = false) ∧
    (∀ (c : MilitaryCharacter) (ops : List Op), c.inventory.length ≤ 3 →
      (runOps c ops).inventory.length ≤ 3) := by
  refine ⟨fun c w => ⟨?_, ?_, ?_⟩, fun c w1 w2 w3 w4 h => ?_, fun c ops h => ?_⟩
  · constructor
    · intro ht
      by_contra hfull
      rw [pickup_fail_of_full c w hfull] at ht
      cases ht
    · intro hlt
      exact (pickup_success_len c w hlt).1
  · intro ht
    by_cases hlt : c.inventory.length < 3
    · rw [pickup_eq, if_pos (show c.inventory.length < MAX_WEAPONS from hlt)]
      exact ⟨rfl, rfl⟩
    · rw [pickup_fail_of_full c w hlt] at ht
      cases ht
  · intro hf
    by_cases hlt : c.inventory.length < 3
    · rw [(pickup_success_len c w hlt).1] at hf
      cases hf
    · rw [pickup_eq, if_neg (show ¬c.inventory.length < MAX_WEAPONS from hlt)]
  · have l0 : c.inventory.length = 0 := by rw [h]; rfl
    obtain ⟨s1, l1⟩ := pickup_success_len c w1 (by omega)
    obtain ⟨s2, l2⟩ := pickup_success_len (c.PickupWeapon w1).2 w2 (by omega)
    obtain ⟨s3, l3⟩ := pickup_success_len ((c.PickupWeapon w1).2.PickupWeapon w2).2 w3 (by omega)
    have s4 := pickup_fail_of_full
      (((c.PickupWeapon w1).2.PickupWeapon w2).2.PickupWeapon w3).2 w4 (by omega)
    exact ⟨s1, s2, s3, s4⟩
  · exact runOps_inventory_length ops c h

/-- C4 witness: concrete four-pickup run from the fresh character. -/
theorem C4_witness :
    (c0.PickupWeapon (pistol 1)).1 = true ∧
    (((c0.PickupWeapon (pistol 1)).2).PickupWeapon (pistol 2)).1 = true ∧
    (((((c0.PickupWeapon (pistol 1)).2).PickupWeapon (pistol 2)).2).PickupWeapon
      (pistol 3)).1 = true ∧
    (((((((c0.PickupWeapon (pistol 1)).2).PickupWeapon (pistol 2)).2).PickupWeapon
      (pistol 3)).2).PickupWeapon (pistol 4)).1 = false :=
  C4_pickup_capacity.2.1 c0 (pistol 1) (pistol 2) (pistol 3) (pistol 4) rfl

/-- C5: the first successful pickup on a character with no equipped weapon
equips the picked-up weapon (the one just appended to the heap); any pickup
on a character that already has an equipped weapon, successful or not,
leaves `currentWeapon` unchanged. -/
theorem C5_first_pickup_equips :
    (∀ (c : MilitaryCharacter) (w : Weapon), c.currentWeapon = none →
      (c.PickupWeapon w).1 = true →
      (c.PickupWeapon w).2.currentWeapon = some c.weapons.length) ∧
    (∀ (c : MilitaryCharacter) (w : Weapon) (j : Nat), c.currentWeapon = some j →
      (c.PickupWeapon w).2.currentWeapon = some j) := by
  constructor
  · intro c w hnone ht
    by_cases hlt : c.inventory.length < 3
    · rw [pickup_eq, if_pos (show c.inventory.length < MAX_WEAPONS from hlt)]
      simp [hnone]
    · rw [pickup_fail_of_full c w hlt] at ht
      cases ht
  · intro c w j hj
    by_cases hlt : c.inventory.length < 3
    · rw [pickup_eq, if_pos (show c.inventory.length < MAX_WEAPONS from hlt)]
      simp [hj]
    · rw [pickup_eq, if_neg (show ¬c.inventory.length < MAX_WEAPONS from hlt)]
      exact hj

/-- C5 witness: the fresh character's first pickup equips weapon id 0, and a
second pickup leaves it equipped. -/
theorem C5_witness :
    (c0.PickupWeapon (pistol 1)).2.currentWeapon = some 0 ∧
    ((c0.PickupWeapon (pistol 1)).2.PickupWeapon (pistol 2)).2.currentWeapon = some 0 :=
  ⟨C5_first_pickup_equips.1 c0 (pistol 1) rfl rfl,
   C5_first_pickup_equips.2 (c0.PickupWeapon (pistol 1)).2 (pistol 2) 0
     (C5_first_pickup_equips.1 c0 (pistol 1) rfl rfl)⟩

lemma cfmod_neg180 : cfmod (-180 : ℚ) 360 = -180 := by
  have h1 : ratTrunc ((-180 : ℚ) / 360) = 0 := by
    rw [ratTrunc_eq_ceil _ (by norm_num)]
    rw [show ((-180 : ℚ) / 360) = -(1 / 2) by norm_num]
    rw [Int.ceil_neg]
    norm_num
  rw [cfmod, h1]
  norm_num

lemma cfmod_16200 : cfmod (16200 : ℚ) 360 = 0 := by
  have h1 : ratTrunc ((16200 : ℚ) / 360) = 45 := by
    rw [ratTrunc_eq_floor _ (by norm_num)]
    rw [show ((16200 : ℚ) / 360) = 45 by norm_num]
    norm_num
  rw [cfmod, h1]
  norm_num

/-- C8 counterexample, two parts on the freshly constructed character
(yaw 0, rotationSpeed 180).  (1) `Rotate(90, 1.0)` leaves the yaw at 0, not
at 180: the code adds `yawDelta × rotationSpeed × deltaTime` =
90 × 180 × 1 = 16200 ≡ 0 (mod 360) degrees, so the claimed "+180 degrees"
instance is false.  (2) `Rotate(-1, 1.0)` leaves the yaw at -180, which is
not wrapped into [0, 360). -/
theorem C8_counterexample :
    ((MilitaryCharacter.init ⟨0, 0, 0⟩).Rotate 90 1).rotation.y = 0 ∧
    ¬((MilitaryCharacter.init ⟨0, 0, 0⟩).Rotate 90 1).rotation.y = 180 ∧
    ((MilitaryCharacter.init ⟨0, 0, 0⟩).Rotate (-1) 1).rotation.y = -180 ∧
    ¬(0 ≤ ((MilitaryCharacter.init ⟨0, 0, 0⟩).Rotate (-1) 1).rotation.y ∧
      ((MilitaryCharacter.init ⟨0, 0, 0⟩).Rotate (-1) 1).rotation.y < 360) := by
  have harg90 : (MilitaryCharacter.init ⟨0, 0, 0⟩).rotation.y +
      (90 : ℚ) * (MilitaryCharacter.init ⟨0, 0, 0⟩).stats.rotationSpeed * 1 = 16200 := by
    norm_num [MilitaryCharacter.init]
  have hval90 : ((MilitaryCharacter.init ⟨0, 0, 0⟩).Rotate 90 1).rotation.y = 0 := by
    show cfmod ((MilitaryCharacter.init ⟨0, 0, 0⟩).rotation.y +
      (90 : ℚ) * (MilitaryCharacter.init ⟨0, 0, 0⟩).stats.rotationSpeed * 1) 360 = 0
    rw [harg90, cfmod_16200]
  have hargneg : (MilitaryCharacter.init ⟨0, 0, 0⟩).rotation.y +
      (-1 : ℚ) * (MilitaryCharacter.init ⟨0, 0, 0⟩).stats.rotationSpeed * 1 = -180 := by
    norm_num [MilitaryCharacter.init]
  have hvalneg : ((MilitaryCharacter.init ⟨0, 0, 0⟩).Rotate (-1) 1).rotation.y = -180 := by
    show cfmod ((MilitaryCharacter.init ⟨0, 0, 0⟩).rotation.y +
      (-1 : ℚ) * (MilitaryCharacter.init ⟨0, 0, 0⟩).stats.rotationSpeed * 1) 360 = -180
    rw [hargneg, cfmod_neg180]
  refine ⟨hval90, ?_, hvalneg, fun hcontra => ?_⟩
  · rw [hval90]
    norm_num
  · rw [hvalneg] at hcontra
    exact absurd hcontra.1 (by norm_num)

/-- C8 (amended): `Rotate(yawDelta, deltaTime)` adds
`yawDelta × rotationSpeed × deltaTime` to the yaw and reduces it with C's
truncated `fmod(·, 360)`, which lands in [0, 360) whenever the incremented
yaw is nonnegative (a negative incremented yaw keeps its sign); in
particular `Rotate(90, 1.0)` with rotationSpeed = 180 increases the yaw by
90 × 180 × 1 = 16200 degrees — not by 180 — and from a nonnegative yaw the
wrapped result does lie in [0, 360). -/
theorem C8_rotate_amended (c : MilitaryCharacter) (yawDelta deltaTime : ℚ) :
    (c.Rotate yawDelta deltaTime).rotation.y =
      cfmod (c.rotation.y + yawDelta * c.stats.rotationSpeed * deltaTime) 360 ∧
    (0 ≤ c.rotation.y + yawDelta * c.stats.rotationSpeed * deltaTime →
      0 ≤ (c.Rotate yawDelta deltaTime).rotation.y ∧
      (c.Rotate yawDelta deltaTime).rotation.y < 360) ∧
    (c.stats.rotationSpeed = 180 → yawDelta = 90 → deltaTime = 1 →
      0 ≤ c.rotation.y →
      (c.Rotate yawDelta deltaTime).rotation.y = cfmod (c.rotation.y + 16200) 360 ∧
      0 ≤ (c.Rotate yawDelta deltaTime).rotation.y ∧
      (c.Rotate yawDelta deltaTime).rotation.y < 360) := by
  have hdef : (c.Rotate yawDelta deltaTime).rotation.y =
      cfmod (c.rotation.y + yawDelta * c.stats.rotationSpeed * deltaTime) 360 := rfl
  refine ⟨hdef, fun h0 => ?_, fun hrs hyd hdt hy => ?_⟩
  · rw [hdef]
    exact cfmod_nonneg_lt _ 360 h0 (by norm_num)
  · have harg : c.rotation.y + yawDelta * c.stats.rotationSpeed * deltaTime =
        c.rotation.y + 16200 := by
      rw [hrs, hyd, hdt]; ring
    refine ⟨by rw [hdef, harg], ?_⟩
    rw [hdef, harg]
    exact cfmod_nonneg_lt _ 360 (by linarith) (by norm_num)

/-- C8 witness for the amended claim: the fresh character rotated by
`Rotate(90, 1.0)`. -/
theorem C8_witness :
    (c0.Rotate 90 1).rotation.y = cfmod (c0.rotation.y + 16200) 360 ∧
    0 ≤ (c0.Rotate 90 1).rotation.y ∧ (c0.Rotate 90 1).rotation.y < 360 :=
  (C8_rotate_amended c0 90 1).2.2 rfl rfl rfl (le_refl 0)

/-- C9: once a weapon's reloading flag is set (as `StartReload` does), no
sequence of character or weapon operations ever clears it or increases
`currentAmmo`; a weapon that reached ammo 0 stays at 0 forever. -/
theorem C9_no_reload_completion (c : MilitaryCharacter) (ops : List Op) (i : Nat)
    (w : Weapon) (hw : c.getWeapon i = some w) :
    ∃ w', (runOps c ops).getWeapon i = some w' ∧
      (w.isReloading = true → w'.isReloading = true) ∧
      w'.stats.currentAmmo ≤ w.stats.currentAmmo ∧
      (w.stats.currentAmmo = 0 → w'.stats.currentAmmo = 0) := by
  rw [MilitaryCharacter.getWeapon] at hw
  obtain ⟨w', h1, hev⟩ := runOps_heap ops c i w hw
  exact ⟨w', h1, hev.1, hev.2.1, hev.2.2⟩

/-- C9 witness: a character holding an empty, reloading pistol, run through
a shoot and a reload. -/
theorem C9_witness :
    ∃ w', (runOps cReloading [Op.shoot, Op.reload]).getWeapon 0 = some w' ∧
      (wRel.isReloading = true → w'.isReloading = true) ∧
      w'.stats.currentAmmo ≤ wRel.stats.currentAmmo ∧
      (wRel.stats.currentAmmo = 0 → w'.stats.currentAmmo = 0) :=
  C9_no_reload_completion cReloading [Op.shoot, Op.reload] 0 wRel rfl

/-- C10: the equipped-weapon invariant — whenever `currentWeapon` is
non-null it references an element of the inventory — holds for a freshly
constructed character and is kept by every sequence of operations. -/
theorem C10_equipped_in_inventory :
    (∀ p : Vec3, weaponInvariant (MilitaryCharacter.init p)) ∧
    (∀ (c : MilitaryCharacter) (ops : List Op),
      weaponInvariant c → weaponInvariant (runOps c ops)) := by
  constructor
  · intro p i hi
    simp [MilitaryCharacter.init] at hi
  · exact fun c ops h => runOps_weaponInvariant ops c h

/-- C10 witness: the invariant after a pickup and a shot from the fresh
character. -/
theorem C10_witness :
    weaponInvariant (runOps c0 [Op.pickupWeapon (pistol 1), Op.shoot]) :=
  C10_equipped_in_inventory.2 c0 [Op.pickupWeapon (pistol 1), Op.shoot]
    (C10_equipped_in_inventory.1 ⟨0, 0, 0⟩)
